import Mathlib

/-!
Verification of the VolleyStats trajectory rule-evaluation and zone-geometry
engine.

The definitions below are a shallow embedding of the engine's source:

* the geometry kernel (distance, point-in-circle, point-in-rectangle,
  segment intersection) from the shared geometry module;
* the zone / rule / trajectory data model and the full-score rule
  evaluation loop of the tracker screen;
* the standalone landing detector and the 3x3 bucket statistics of the
  serving-tracker screen;
* the rule-construction validation of the Add Rule handler.

Coordinates and times are modelled as exact rationals; the engine's
floating point numbers are treated as real-valued arithmetic.  The source's
distance comparisons go through a square root on both sides; because the
square root is monotone on nonnegative numbers they are modelled by
comparisons of squared distances, and the bridge to the square-root form is
proved where a claim mentions distances.
-/

namespace VolleyStats

/-- A 2-D point in source-video pixel space (source type Point). -/
structure Point where
  x : ℚ
  y : ℚ
deriving DecidableEq, Repr

/-- Squared Euclidean distance.  The source's getDistance returns the square
root of this value; every use in the engine only compares distances, so the
embedding keeps the square to stay within exact arithmetic. -/
def getDistanceSq (p1 p2 : Point) : ℚ :=
  (p2.x - p1.x) ^ 2 + (p2.y - p1.y) ^ 2

/-- Source isPointInCircle: radius is given by a point on the circumference;
membership is an inclusive distance comparison (modelled on squares). -/
def isPointInCircle (point center radius : Point) : Bool :=
  decide (getDistanceSq point center ≤ getDistanceSq center radius)

/-- Source isPointInRect: normalize the two corners to min/max and test the
coordinates with inclusive bounds. -/
def isPointInRect (point p1 p2 : Point) : Bool :=
  decide (min p1.x p2.x ≤ point.x) && decide (point.x ≤ max p1.x p2.x) &&
  decide (min p1.y p2.y ≤ point.y) && decide (point.y ≤ max p1.y p2.y)

/-- Source onSegment (local helper of doIntersect): q lies within the min/max
bounding box of the segment p-r. -/
def onSegment (p r q : Point) : Bool :=
  decide (q.x ≤ max p.x r.x) && decide (min p.x r.x ≤ q.x) &&
  decide (q.y ≤ max p.y r.y) && decide (min p.y r.y ≤ q.y)

/-- Source orientation: 0 = collinear, 1 = clockwise, 2 = counterclockwise,
by the sign of the cross product. -/
def orientation (p q r : Point) : ℕ :=
  let val := (q.y - p.y) * (r.x - q.x) - (q.x - p.x) * (r.y - q.y)
  if val = 0 then 0 else if 0 < val then 1 else 2

/-- Source doIntersect: the classical orientation-based segment-intersection
test with four collinear special cases. -/
def doIntersect (p1 q1 p2 q2 : Point) : Bool :=
  let o1 := orientation p1 q1 p2
  let o2 := orientation p1 q1 q2
  let o3 := orientation p2 q2 p1
  let o4 := orientation p2 q2 q1
  if o1 ≠ o2 ∧ o3 ≠ o4 then true
  else if o1 = 0 ∧ onSegment p1 q1 p2 = true then true
  else if o2 = 0 ∧ onSegment p1 q1 q2 = true then true
  else if o3 = 0 ∧ onSegment p2 q2 p1 = true then true
  else if o4 = 0 ∧ onSegment p2 q2 q1 = true then true
  else false

/-- Zone type tag (source type: 'line' | 'circle' | 'square'). -/
inductive ZoneType
  | line
  | circle
  | square
deriving DecidableEq, Repr

/-- A zone (source type Zone).  The source stores the two reference points in
an array of invariant length 2; they are embedded as the two fields point0
and point1 (source zone.points[0] and zone.points[1]).  The color field is
purely presentational and not read by any verified function, so it is
omitted. -/
structure Zone where
  id : String
  type : ZoneType
  point0 : Point
  point1 : Point
  label : String
deriving DecidableEq, Repr

/-- Rule trigger condition (source: 'cross' | 'enter' | 'exit' | 'inside'). -/
inductive Condition
  | cross
  | enter
  | exit
  | inside
deriving DecidableEq, Repr

/-- Rule scoring action (source: 'add' | 'deduct'). -/
inductive RuleAction
  | add
  | deduct
deriving DecidableEq, Repr

/-- A scoring rule (source type Rule). -/
structure Rule where
  id : String
  zoneId : String
  condition : Condition
  action : RuleAction
  points : ℤ
deriving DecidableEq, Repr

/-- A trajectory sample (source type TrajectoryPoint).  The source also
carries the bounding box, the confidence and the class name; none of those
fields is read by the functions verified here (center is the precomputed
box midpoint), so the embedding keeps only time and center. -/
structure TrajectoryPoint where
  time : ℚ
  center : Point
deriving DecidableEq, Repr

/-- One score-log entry (source: the object pushed into newLog). -/
structure LogEntry where
  time : ℚ
  msg : String
deriving DecidableEq, Repr

/-- Source checkInside: dispatch containment on the zone type; a line has no
interior. -/
def checkInside (p : Point) (zone : Zone) : Bool :=
  match zone.type with
  | ZoneType.circle => isPointInCircle p zone.point0 zone.point1
  | ZoneType.square => isPointInRect p zone.point0 zone.point1
  | ZoneType.line => false

/-- Source zone lookup inside the rule loop: zones.find on the rule's
zoneId. -/
def findZone (zones : List Zone) (zid : String) : Option Zone :=
  zones.find? (fun z => z.id == zid)

/-- The trigger decision for one rule on one consecutive pair (prev, curr),
with the optional lookahead point used by the inside condition.  This is the
body of the rule loop of the source's calculateFullScore. -/
def ruleTriggered (zone : Zone) (prev curr : TrajectoryPoint)
    (next? : Option TrajectoryPoint) (rule : Rule) : Bool :=
  if zone.type == ZoneType.line && rule.condition == Condition.cross then
    doIntersect prev.center curr.center zone.point0 zone.point1
  else if rule.condition == Condition.enter then
    !(checkInside prev.center zone) && checkInside curr.center zone
  else if rule.condition == Condition.exit then
    checkInside prev.center zone && !(checkInside curr.center zone)
  else if rule.condition == Condition.inside then
    match next? with
    | some next =>
        checkInside curr.center zone &&
        (decide (prev.center.y ≤ curr.center.y) &&
         decide (next.center.y < curr.center.y))
    | none => false
  else false

/-- Signed score delta of a firing rule (source: rule.action equal to add
gives rule.points, otherwise minus rule.points). -/
def ruleDelta (rule : Rule) : ℤ :=
  if rule.action == RuleAction.add then rule.points else -rule.points

/-- The formatted log message of a firing rule (source template string). -/
def logMsg (rule : Rule) (zone : Zone) : String :=
  (if rule.action == RuleAction.add then "+" else "-") ++
    toString rule.points ++ " (" ++ zone.label ++ ")"

/-- One iteration of the inner rule loop of calculateFullScore: resolve the
rule's zone (a missing zone is skipped silently), decide the trigger, and on
a trigger accumulate the delta into the score and append a log entry tagged
with curr.time. -/
def applyRule (zones : List Zone) (prev curr : TrajectoryPoint)
    (next? : Option TrajectoryPoint) (acc : ℤ × List LogEntry)
    (rule : Rule) : ℤ × List LogEntry :=
  match findZone zones rule.zoneId with
  | none => acc
  | some zone =>
      if ruleTriggered zone prev curr next? rule then
        (acc.1 + ruleDelta rule,
         acc.2 ++ [{ time := curr.time, msg := logMsg rule zone }])
      else acc

/-- The outer pair scan of calculateFullScore: for i from 1 to N-1 run every
rule on (sorted[i-1], sorted[i]), with sorted[i+1] as the lookahead for the
inside condition.  The accumulator carries (score, log). -/
def scanLoop (zones : List Zone) (rules : List Rule) :
    ℤ × List LogEntry → List TrajectoryPoint → ℤ × List LogEntry
  | acc, prev :: curr :: rest =>
      scanLoop zones rules
        (rules.foldl (applyRule zones prev curr rest.head?) acc) (curr :: rest)
  | acc, _ => acc

/-- The comparator of the source's sort call (a.time - b.time ascending). -/
def timeLe (a b : TrajectoryPoint) : Bool :=
  decide (a.time ≤ b.time)

/-- The source sorts a copy of the trajectory ascending by time before the
scan; the runtime sort is stable, as is mergeSort. -/
def sortTrajectory (traj : List TrajectoryPoint) : List TrajectoryPoint :=
  traj.mergeSort timeLe

/-- Source calculateFullScore: sort by time, then scan consecutive pairs,
returning the final score and the ordered event log. -/
def calculateFullScore (zones : List Zone) (rules : List Rule)
    (traj : List TrajectoryPoint) : ℤ × List LogEntry :=
  scanLoop zones rules (0, []) (sortTrajectory traj)

/-- The Add Rule handler of the tracker screens: look the selected zone up;
if it exists, is a line and the chosen condition is not cross, show a
validation message and return without changing the rule set; otherwise
append the new rule.  This is the only validation the handler performs. -/
def addRule (zones : List Zone) (rules : List Rule) (newRule : Rule) :
    List Rule :=
  match findZone zones newRule.zoneId with
  | some zone =>
      if zone.type == ZoneType.line && newRule.condition != Condition.cross
      then rules
      else rules ++ [newRule]
  | none => rules ++ [newRule]

/-- The court-boundary filter of the standalone landing detector: with
exactly two recorded court points the candidate must lie in their rectangle,
otherwise it is accepted unconditionally. -/
def courtAccepts (courtPoints : List Point) (p : Point) : Bool :=
  match courtPoints with
  | [c1, c2] => isPointInRect p c1 c2
  | _ => true

/-- Source detectLandings: slide a 5-point window over the trajectory (i
from 2 to length - 3); the centre sample is a candidate landing iff its y
is strictly greater than the y of all four neighbours; keep it subject to
the court-boundary filter.  The recursion steps the window one sample at a
time, exactly like the index loop. -/
def detectLandings (courtPoints : List Point) :
    List TrajectoryPoint → List Point
  | prev2 :: prev :: curr :: next :: next2 :: rest =>
      (if (decide (prev.center.y < curr.center.y) &&
           decide (prev2.center.y < curr.center.y) &&
           decide (next.center.y < curr.center.y) &&
           decide (next2.center.y < curr.center.y)) &&
          courtAccepts courtPoints curr.center
       then [curr.center] else []) ++
        detectLandings courtPoints (prev :: curr :: next :: next2 :: rest)
  | _ => []

/-- Grid geometry of the serving court (source getGridInfo): null with fewer
than two court points, otherwise the normalized bounding box of the first
two, divided into 3 x 3 cells. -/
structure GridInfo where
  x : ℚ
  y : ℚ
  w : ℚ
  h : ℚ
  cellW : ℚ
  cellH : ℚ
deriving DecidableEq, Repr

/-- Source getGridInfo. -/
def getGridInfo (courtPoints : List Point) : Option GridInfo :=
  match courtPoints with
  | p1 :: p2 :: _ =>
      some { x := min p1.x p2.x
             y := min p1.y p2.y
             w := |p2.x - p1.x|
             h := |p2.y - p1.y|
             cellW := |p2.x - p1.x| / 3
             cellH := |p2.y - p1.y| / 3 }
  | _ => none

/-- The cell a landing point falls into (the body of the stats loop): column
and row by floored division; none when either falls outside 0..2, in which
case the source silently skips the point. -/
def cellIndexOf (grid : GridInfo) (p : Point) : Option ℕ :=
  let col : ℤ := Int.floor ((p.x - grid.x) / grid.cellW)
  let row : ℤ := Int.floor ((p.y - grid.y) / grid.cellH)
  if 0 ≤ col ∧ col < 3 ∧ 0 ≤ row ∧ row < 3
  then some (row * 3 + col).toNat
  else none

/-- The counting loop of the stats computation: per-cell counts (as a
function from the cell index, embedding the source's 9-slot array) and the
total of counted landings. -/
def bucketCounts (grid : GridInfo) (landingPoints : List Point) :
    (ℕ → ℕ) × ℕ :=
  landingPoints.foldl
    (fun acc p =>
      match cellIndexOf grid p with
      | some idx => (fun k => if k = idx then acc.1 k + 1 else acc.1 k,
                     acc.2 + 1)
      | none => acc)
    (fun _ => 0, 0)

/-- One cell of the 3 x 3 statistics (source quadrantStats entry). -/
structure QuadStat where
  count : ℕ
  percentage : ℚ
deriving DecidableEq, Repr

/-- The full statistics value (source stats memo). -/
structure CourtStats where
  total : ℕ
  quadrants : List QuadStat
  efficiency : ℚ
deriving DecidableEq, Repr

/-- Source stats: without a grid everything is zero; otherwise count the
landings into the cells, derive each cell's percentage of the counted total,
and the target efficiency as the target cells' share of the counted total
(both 0 when the total is 0). -/
def computeStats (courtPoints : List Point) (landingPoints : List Point)
    (targetQuadrants : List ℕ) : CourtStats :=
  match getGridInfo courtPoints with
  | none =>
      { total := 0
        quadrants := List.replicate 9 { count := 0, percentage := 0 }
        efficiency := 0 }
  | some grid =>
      let bc := bucketCounts grid landingPoints
      let total := bc.2
      let quadrants := (List.range 9).map (fun k =>
        { count := bc.1 k
          percentage := if 0 < total then (bc.1 k : ℚ) / total * 100 else 0 })
      let targetHits := targetQuadrants.foldl (fun acc idx => acc + bc.1 idx) 0
      { total := total
        quadrants := quadrants
        efficiency :=
          if 0 < total then (targetHits : ℚ) / total * 100 else 0 }

/-! Claim-side (specification) definitions.  These follow the wording of the
specification and are compared with the source-side definitions above by the
refinement theorems below. -/

/-- Specification side: the events of one consecutive pair, one per
triggered rule, in rule-set order, each carrying the signed delta and the
log entry tagged with curr.time. -/
def pairEvents (zones : List Zone) (rules : List Rule)
    (prev curr : TrajectoryPoint) (next? : Option TrajectoryPoint) :
    List (ℤ × LogEntry) :=
  rules.filterMap (fun rule =>
    match findZone zones rule.zoneId with
    | none => none
    | some zone =>
        if ruleTriggered zone prev curr next? rule then
          some (ruleDelta rule, { time := curr.time, msg := logMsg rule zone })
        else none)

/-- Specification side: all events of the pairwise scan, outer loop over
consecutive pairs, inner loop over rules, in evaluation order. -/
def traceEvents (zones : List Zone) (rules : List Rule) :
    List TrajectoryPoint → List (ℤ × LogEntry)
  | prev :: curr :: rest =>
      pairEvents zones rules prev curr rest.head? ++
        traceEvents zones rules (curr :: rest)
  | _ => []

/-- Specification side, landing detector: the landing emitted at index i, as
the claim words it — present iff i is at least 2, samples at i-2 .. i+2 all
exist (so i is at most length - 3), the centre's y strictly exceeds the y of
the four window neighbours, and the court-boundary filter accepts the
centre. -/
def landingAtIndex (courtPoints : List Point) (traj : List TrajectoryPoint)
    (i : ℕ) : Option Point :=
  if i < 2 then none else
  match traj.get? (i - 2), traj.get? (i - 1), traj.get? i,
        traj.get? (i + 1), traj.get? (i + 2) with
  | some prev2, some prev, some curr, some next, some next2 =>
      if ((decide (prev.center.y < curr.center.y) &&
           decide (prev2.center.y < curr.center.y) &&
           decide (next.center.y < curr.center.y) &&
           decide (next2.center.y < curr.center.y)) &&
          courtAccepts courtPoints curr.center) = true
      then some curr.center else none
  | _, _, _, _, _ => none

/-- Specification side, landing detector, helper: the landing emitted by the
window starting at offset j (so with centre index j + 2). -/
def landingWindowAt (courtPoints : List Point) (traj : List TrajectoryPoint)
    (j : ℕ) : Option Point :=
  match traj.get? j, traj.get? (j + 1), traj.get? (j + 2),
        traj.get? (j + 3), traj.get? (j + 4) with
  | some prev2, some prev, some curr, some next, some next2 =>
      if ((decide (prev.center.y < curr.center.y) &&
           decide (prev2.center.y < curr.center.y) &&
           decide (next.center.y < curr.center.y) &&
           decide (next2.center.y < curr.center.y)) &&
          courtAccepts courtPoints curr.center) = true
      then some curr.center else none
  | _, _, _, _, _ => none

/-- Specification side, bucket statistics: the count of one cell is the
number of landing points assigned to it. -/
def cellCountSpec (grid : GridInfo) (landingPoints : List Point) (k : ℕ) : ℕ :=
  landingPoints.countP (fun p => cellIndexOf grid p == some k)

/-- Specification side, bucket statistics: the counted total is the number
of landing points that fall into some cell. -/
def totalSpec (grid : GridInfo) (landingPoints : List Point) : ℕ :=
  landingPoints.countP (fun p => (cellIndexOf grid p).isSome)

/-! Helper lemmas about the rule-evaluation engine. -/

/-- The inner rule fold equals the accumulator extended with the pair's
events: the score grows by the sum of the signed deltas, the log by the
entries, in rule-set order. -/
theorem foldl_applyRule_eq (zones : List Zone) (prev curr : TrajectoryPoint)
    (next? : Option TrajectoryPoint) (rules : List Rule) (s : ℤ)
    (l : List LogEntry) :
    rules.foldl (applyRule zones prev curr next?) (s, l) =
      (s + ((pairEvents zones rules prev curr next?).map Prod.fst).sum,
       l ++ (pairEvents zones rules prev curr next?).map Prod.snd) := by
  induction rules generalizing s l with
  | nil => simp [pairEvents]
  | cons r rs ih =>
      cases h : findZone zones r.zoneId with
      | none =>
          have happ : applyRule zones prev curr next? (s, l) r = (s, l) := by
            simp [applyRule, h]
          rw [List.foldl_cons, happ, ih]
          simp [pairEvents, List.filterMap_cons, h]
      | some zone =>
          by_cases ht : ruleTriggered zone prev curr next? r = true
          · have happ : applyRule zones prev curr next? (s, l) r =
                (s + ruleDelta r,
                 l ++ [{ time := curr.time, msg := logMsg r zone }]) := by
              simp [applyRule, h, ht]
            rw [List.foldl_cons, happ, ih]
            simp [pairEvents, List.filterMap_cons, h, ht, add_assoc,
              List.append_assoc]
          · have happ : applyRule zones prev curr next? (s, l) r = (s, l) := by
              simp [applyRule, h, ht]
            rw [List.foldl_cons, happ, ih]
            simp [pairEvents, List.filterMap_cons, h, ht]

/-- The pair scan equals the accumulator extended with the trace events of
the remaining trajectory. -/
theorem scanLoop_eq (zones : List Zone) (rules : List Rule)
    (t : List TrajectoryPoint) (s : ℤ) (l : List LogEntry) :
    scanLoop zones rules (s, l) t =
      (s + ((traceEvents zones rules t).map Prod.fst).sum,
       l ++ (traceEvents zones rules t).map Prod.snd) := by
  induction t generalizing s l with
  | nil => simp [scanLoop, traceEvents]
  | cons a t ih =>
      cases t with
      | nil => simp [scanLoop, traceEvents]
      | cons b rest =>
          simp only [scanLoop, foldl_applyRule_eq, traceEvents]
          rw [ih]
          simp [add_assoc, List.append_assoc]

/-- Sorting is the identity on a trajectory already sorted ascending by
time. -/
theorem sortTrajectory_of_sorted {t : List TrajectoryPoint}
    (h : t.Pairwise (fun a b => a.time ≤ b.time)) :
    sortTrajectory t = t :=
  List.mergeSort_of_sorted (h.imp (fun hab => decide_eq_true hab))

/-- On a time-sorted trajectory the engine returns the summed deltas and the
event log of the trace. -/
theorem calculateFullScore_sorted (zones : List Zone) (rules : List Rule)
    {t : List TrajectoryPoint}
    (h : t.Pairwise (fun a b => a.time ≤ b.time)) :
    calculateFullScore zones rules t =
      (((traceEvents zones rules t).map Prod.fst).sum,
       (traceEvents zones rules t).map Prod.snd) := by
  rw [calculateFullScore, sortTrajectory_of_sorted h, scanLoop_eq]
  simp

/-! Concrete scenario of claim C1: circle zone of radius 5 at the origin,
rules Enter/Add/3 and Exit/Deduct/2, trajectory (10,0) at t=0, (0,0) at t=1,
(10,0) at t=2. -/

/-- Circle zone of radius 5 at the origin (edge point (5,0)). -/
def zoneC1 : Zone :=
  { id := "z1", type := ZoneType.circle, point0 := { x := 0, y := 0 },
    point1 := { x := 5, y := 0 }, label := "Zone" }

/-- Rules Enter/Add/3 and Exit/Deduct/2 on the circle zone. -/
def rulesC1 : List Rule :=
  [{ id := "r1", zoneId := "z1", condition := Condition.enter,
     action := RuleAction.add, points := 3 },
   { id := "r2", zoneId := "z1", condition := Condition.exit,
     action := RuleAction.deduct, points := 2 }]

/-- Trajectory with centers (10,0), (0,0), (10,0) at times 0, 1, 2. -/
def trajC1 : List TrajectoryPoint :=
  [{ time := 0, center := { x := 10, y := 0 } },
   { time := 1, center := { x := 0, y := 0 } },
   { time := 2, center := { x := 10, y := 0 } }]

/-- C1: on a time-sorted trajectory the engine scans consecutive pairs and,
per pair and per rule in rule-set order, triggers a Cross rule on a Line
zone iff the segment between the two centers intersects the zone's segment,
an Enter rule iff the previous center is outside and the current inside, an
Exit rule iff the previous center is inside and the current outside; every
trigger contributes its signed delta to the score and one log entry tagged
with the current sample's time, the final score being the sum of the deltas
and the log the events in evaluation order; in particular the circle
scenario of zoneC1 / rulesC1 / trajC1 yields score 1 with exactly two log
entries, tagged t=1 and t=2. -/
theorem claim_c1_rule_engine :
    (∀ (zones : List Zone) (rules : List Rule) (traj : List TrajectoryPoint),
        traj.Pairwise (fun a b => a.time ≤ b.time) →
        calculateFullScore zones rules traj =
          (((traceEvents zones rules traj).map Prod.fst).sum,
           (traceEvents zones rules traj).map Prod.snd)) ∧
    (∀ (zone : Zone) (prev curr : TrajectoryPoint)
        (next? : Option TrajectoryPoint) (rule : Rule),
        rule.condition = Condition.cross → zone.type = ZoneType.line →
        ruleTriggered zone prev curr next? rule =
          doIntersect prev.center curr.center zone.point0 zone.point1) ∧
    (∀ (zone : Zone) (prev curr : TrajectoryPoint)
        (next? : Option TrajectoryPoint) (rule : Rule),
        rule.condition = Condition.enter →
        ruleTriggered zone prev curr next? rule =
          (!(checkInside prev.center zone) && checkInside curr.center zone)) ∧
    (∀ (zone : Zone) (prev curr : TrajectoryPoint)
        (next? : Option TrajectoryPoint) (rule : Rule),
        rule.condition = Condition.exit →
        ruleTriggered zone prev curr next? rule =
          (checkInside prev.center zone && !(checkInside curr.center zone))) ∧
    ((calculateFullScore [zoneC1] rulesC1 trajC1).1 = 1 ∧
     (calculateFullScore [zoneC1] rulesC1 trajC1).2.map LogEntry.time
       = [1, 2]) := by
  refine ⟨?_, ?_, ?_, ?_, ?_⟩
  · exact fun zones rules traj h => calculateFullScore_sorted zones rules h
  · intro zone prev curr next? rule hc hz
    simp [ruleTriggered, hc, hz]
  · intro zone prev curr next? rule hc
    simp [ruleTriggered, hc]
  · intro zone prev curr next? rule hc
    simp [ruleTriggered, hc]
  · have hsort : sortTrajectory trajC1 = trajC1 :=
      sortTrajectory_of_sorted (by decide)
    rw [calculateFullScore, hsort]
    have hin : checkInside { x := 0, y := 0 } zoneC1 = true := by
      norm_num [checkInside, isPointInCircle, getDistanceSq, zoneC1]
    have hout : checkInside { x := 10, y := 0 } zoneC1 = false := by
      norm_num [checkInside, isPointInCircle, getDistanceSq, zoneC1]
    simp only [scanLoop, rulesC1, trajC1, List.foldl_cons, List.foldl_nil,
      List.head?]
    simp only [applyRule, findZone, List.find?, zoneC1]
    norm_num [ruleTriggered, ruleDelta, zoneC1]
    simp_all [zoneC1]

/-- Witness for C1: the hypotheses of the universally quantified conjuncts
are satisfiable at the concrete scenario. -/
theorem claim_c1_rule_engine_witness :
    (calculateFullScore [zoneC1] rulesC1 trajC1 =
      (((traceEvents [zoneC1] rulesC1 trajC1).map Prod.fst).sum,
       (traceEvents [zoneC1] rulesC1 trajC1).map Prod.snd)) ∧
    (ruleTriggered zoneC1
      { time := 0, center := { x := 10, y := 0 } }
      { time := 1, center := { x := 0, y := 0 } } none
      { id := "r1", zoneId := "z1", condition := Condition.enter,
        action := RuleAction.add, points := 3 } =
      (!(checkInside { x := 10, y := 0 } zoneC1) &&
        checkInside { x := 0, y := 0 } zoneC1)) :=
  ⟨claim_c1_rule_engine.1 [zoneC1] rulesC1 trajC1 (by decide),
   claim_c1_rule_engine.2.2.1 zoneC1
     { time := 0, center := { x := 10, y := 0 } }
     { time := 1, center := { x := 0, y := 0 } } none
     { id := "r1", zoneId := "z1", condition := Condition.enter,
       action := RuleAction.add, points := 3 } rfl⟩

/-! Concrete scenario of claim C2: rectangle zone covering four samples
whose y values are 5, 8, 10, 6. -/

/-- Rectangle zone covering the four C2 samples. -/
def zoneC2 : Zone :=
  { id := "z2", type := ZoneType.square, point0 := { x := 0, y := 0 },
    point1 := { x := 20, y := 20 }, label := "Court" }

/-- Inside/Add/1 rule on the rectangle zone. -/
def ruleC2 : Rule :=
  { id := "r3", zoneId := "z2", condition := Condition.inside,
    action := RuleAction.add, points := 1 }

/-- Trajectory with y values 5, 8, 10, 6 at increasing x and t. -/
def trajC2 : List TrajectoryPoint :=
  [{ time := 0, center := { x := 0, y := 5 } },
   { time := 1, center := { x := 1, y := 8 } },
   { time := 2, center := { x := 2, y := 10 } },
   { time := 3, center := { x := 3, y := 6 } }]

/-- C2: an Inside-condition rule triggers at a pair iff a lookahead sample
exists (the last index is skipped without error), the current center is
inside the zone, its y is at least the previous center's y, and strictly
greater than the lookahead center's y; in particular the rectangle scenario
of zoneC2 / ruleC2 / trajC2 fires exactly once, at the index-2 sample
(logged at t=2). -/
theorem claim_c2_inside_condition :
    (∀ (zone : Zone) (prev curr next : TrajectoryPoint) (rule : Rule),
        rule.condition = Condition.inside →
        ruleTriggered zone prev curr (some next) rule =
          (checkInside curr.center zone &&
           (decide (prev.center.y ≤ curr.center.y) &&
            decide (next.center.y < curr.center.y)))) ∧
    (∀ (zone : Zone) (prev curr : TrajectoryPoint) (rule : Rule),
        rule.condition = Condition.inside →
        ruleTriggered zone prev curr none rule = false) ∧
    ((calculateFullScore [zoneC2] [ruleC2] trajC2).1 = 1 ∧
     (calculateFullScore [zoneC2] [ruleC2] trajC2).2.map LogEntry.time
       = [2]) := by
  refine ⟨?_, ?_, ?_⟩
  · intro zone prev curr next rule hc
    simp [ruleTriggered, hc]
  · intro zone prev curr rule hc
    simp [ruleTriggered, hc]
  · have hsort : sortTrajectory trajC2 = trajC2 :=
      sortTrajectory_of_sorted (by decide)
    rw [calculateFullScore, hsort]
    have h5 : checkInside { x := 0, y := 5 } zoneC2 = true := by
      norm_num [checkInside, isPointInRect, zoneC2]
    have h8 : checkInside { x := 1, y := 8 } zoneC2 = true := by
      norm_num [checkInside, isPointInRect, zoneC2]
    have h10 : checkInside { x := 2, y := 10 } zoneC2 = true := by
      norm_num [checkInside, isPointInRect, zoneC2]
    have h6 : checkInside { x := 3, y := 6 } zoneC2 = true := by
      norm_num [checkInside, isPointInRect, zoneC2]
    simp only [scanLoop, trajC2, List.foldl_cons, List.foldl_nil, List.head?]
    simp only [applyRule, findZone, List.find?, zoneC2, ruleC2]
    norm_num [ruleTriggered, ruleDelta, zoneC2, ruleC2]
    simp_all [zoneC2]

/-- Witness for C2: the characterization hypotheses are satisfiable at the
concrete inside rule. -/
theorem claim_c2_inside_condition_witness :
    (ruleTriggered zoneC2
      { time := 0, center := { x := 0, y := 5 } }
      { time := 1, center := { x := 1, y := 8 } }
      (some { time := 2, center := { x := 2, y := 10 } }) ruleC2 =
      (checkInside { x := 1, y := 8 } zoneC2 &&
       (decide ((5:ℚ) ≤ 8) && decide ((10:ℚ) < 8)))) ∧
    (ruleTriggered zoneC2
      { time := 2, center := { x := 2, y := 10 } }
      { time := 3, center := { x := 3, y := 6 } } none ruleC2 = false) :=
  ⟨claim_c2_inside_condition.1 zoneC2
      { time := 0, center := { x := 0, y := 5 } }
      { time := 1, center := { x := 1, y := 8 } }
      { time := 2, center := { x := 2, y := 10 } } ruleC2 rfl,
   claim_c2_inside_condition.2.1 zoneC2
      { time := 2, center := { x := 2, y := 10 } }
      { time := 3, center := { x := 3, y := 6 } } ruleC2 rfl⟩

/-- C10: evaluation of a trajectory with fewer than two samples returns
score 0 and an empty log, since the pair scan has no iterations. -/
theorem claim_c10_short_trajectory :
    ∀ (zones : List Zone) (rules : List Rule) (traj : List TrajectoryPoint),
      traj.length < 2 → calculateFullScore zones rules traj = (0, []) := by
  intro zones rules traj h
  rw [calculateFullScore]
  have hl : (sortTrajectory traj).length = traj.length :=
    (List.mergeSort_perm traj timeLe).length_eq
  cases hsor : sortTrajectory traj with
  | nil => simp [scanLoop]
  | cons a t =>
      cases t with
      | nil => simp [scanLoop]
      | cons b rest =>
          rw [hsor] at hl
          simp at hl
          omega

/-- Witness for C10: a one-sample trajectory evaluates to score 0 and an
empty log. -/
theorem claim_c10_short_trajectory_witness :
    calculateFullScore [] []
      [{ time := 0, center := { x := 0, y := 0 } }] = (0, []) :=
  claim_c10_short_trajectory [] [] _ (by decide)

/-- A rule whose condition is cross while its resolved zone is not a line
zone.  Such rules are the subject of claim C9. -/
def crossOnNonLine (zones : List Zone) (r : Rule) : Bool :=
  r.condition == Condition.cross &&
    (match findZone zones r.zoneId with
     | some z => z.type != ZoneType.line
     | none => false)

/-- A cross rule resolved to a non-line zone leaves the accumulator
untouched: no branch of the trigger decision matches it. -/
theorem applyRule_crossOnNonLine (zones : List Zone)
    (prev curr : TrajectoryPoint) (next? : Option TrajectoryPoint)
    (acc : ℤ × List LogEntry) (r : Rule)
    (h : crossOnNonLine zones r = true) :
    applyRule zones prev curr next? acc r = acc := by
  cases hz : findZone zones r.zoneId with
  | none => simp [applyRule, hz]
  | some zone =>
      rw [crossOnNonLine, hz] at h
      simp only [Bool.and_eq_true, beq_iff_eq, bne_iff_ne] at h
      simp [applyRule, hz, ruleTriggered, h.1, h.2]

/-- Dropping fold elements on which the function acts as the identity does
not change a left fold. -/
theorem foldl_filter_of_skip {α β : Type} (p : α → Bool) (f : β → α → β) :
    ∀ (xs : List α) (acc : β),
      (∀ (acc' : β) (x : α), x ∈ xs → p x = true → f acc' x = acc') →
      (xs.filter (fun x => !(p x))).foldl f acc = xs.foldl f acc := by
  intro xs
  induction xs with
  | nil => intro acc h; rfl
  | cons x rest ih =>
      intro acc h
      by_cases hp : p x = true
      · rw [List.filter_cons, if_neg (by simp [hp]), List.foldl_cons,
          h acc x (by simp) hp]
        exact ih acc (fun a y hy => h a y (by simp [hy]))
      · rw [List.filter_cons, if_pos (by simp [hp]), List.foldl_cons,
          List.foldl_cons]
        exact ih (f acc x) (fun a y hy => h a y (by simp [hy]))

/-- The pair scan ignores cross rules resolved to non-line zones. -/
theorem scanLoop_filter_crossOnNonLine (zones : List Zone) (rules : List Rule) :
    ∀ (t : List TrajectoryPoint) (acc : ℤ × List LogEntry),
      scanLoop zones (rules.filter (fun r => !(crossOnNonLine zones r))) acc t
        = scanLoop zones rules acc t := by
  intro t
  induction t with
  | nil => intro acc; rfl
  | cons a t ih =>
      intro acc
      cases t with
      | nil => rfl
      | cons b rest =>
          simp only [scanLoop]
          rw [foldl_filter_of_skip (crossOnNonLine zones)
            (applyRule zones a b rest.head?) rules acc
            (fun acc' r _ hr => applyRule_crossOnNonLine zones a b rest.head?
              acc' r hr)]
          exact ih _

/-- C9: a rule whose condition is cross but whose referenced zone is a
circle or rectangle zone never triggers — its trigger decision is false on
every pair, and removing all such rules from the rule set changes neither
the final score nor the event log of any evaluation. -/
theorem claim_c9_cross_non_line_inert :
    (∀ (zone : Zone) (prev curr : TrajectoryPoint)
        (next? : Option TrajectoryPoint) (rule : Rule),
        rule.condition = Condition.cross → zone.type ≠ ZoneType.line →
        ruleTriggered zone prev curr next? rule = false) ∧
    (∀ (zones : List Zone) (rules : List Rule) (traj : List TrajectoryPoint),
        calculateFullScore zones rules traj =
          calculateFullScore zones
            (rules.filter (fun r => !(crossOnNonLine zones r))) traj) := by
  constructor
  · intro zone prev curr next? rule hc hz
    simp [ruleTriggered, hc, hz]
  · intro zones rules traj
    rw [calculateFullScore, calculateFullScore,
      scanLoop_filter_crossOnNonLine]

/-- Witness for C9: a cross rule referencing the concrete circle zone does
not trigger on the concrete pair. -/
theorem claim_c9_cross_non_line_inert_witness :
    ruleTriggered zoneC1
      { time := 0, center := { x := 10, y := 0 } }
      { time := 1, center := { x := 0, y := 0 } } none
      { id := "r9", zoneId := "z1", condition := Condition.cross,
        action := RuleAction.add, points := 1 } = false :=
  claim_c9_cross_non_line_inert.1 zoneC1
    { time := 0, center := { x := 10, y := 0 } }
    { time := 1, center := { x := 0, y := 0 } } none
    { id := "r9", zoneId := "z1", condition := Condition.cross,
      action := RuleAction.add, points := 1 } rfl (by decide)

/-- A cross rule referencing the circle zone, used to exhibit that the Add
Rule validation does not reject it. -/
def crossRuleC3 : Rule :=
  { id := "r9", zoneId := "z1", condition := Condition.cross,
    action := RuleAction.add, points := 1 }

/-- Counterexample to C3 as stated: constructing a Cross-condition rule that
references a Circle zone is not rejected — the handler appends it to the
rule set. -/
theorem claim_c3_cross_on_circle_added :
    addRule [zoneC1] [] crossRuleC3 = [crossRuleC3] ∧
    addRule [zoneC1] [] crossRuleC3 ≠ ([] : List Rule) := by
  have he : addRule [zoneC1] [] crossRuleC3 = [crossRuleC3] := rfl
  exact ⟨he, fun h => List.cons_ne_nil crossRuleC3 [] (he.symm.trans h)⟩

/-- C3 (amended): the Add Rule handler rejects exactly an Enter-, Exit- or
Inside-condition rule whose resolved zone is a Line zone; every other
combination — including a Cross-condition rule on a Circle or Rectangle
zone, and a rule whose zone id resolves to nothing — is appended to the
rule set. -/
theorem claim_c3_rule_validation :
    (∀ (zones : List Zone) (rules : List Rule) (r : Rule) (zone : Zone),
        findZone zones r.zoneId = some zone →
        zone.type = ZoneType.line → r.condition ≠ Condition.cross →
        addRule zones rules r = rules) ∧
    (∀ (zones : List Zone) (rules : List Rule) (r : Rule) (zone : Zone),
        findZone zones r.zoneId = some zone →
        (zone.type ≠ ZoneType.line ∨ r.condition = Condition.cross) →
        addRule zones rules r = rules ++ [r]) ∧
    (∀ (zones : List Zone) (rules : List Rule) (r : Rule),
        findZone zones r.zoneId = none →
        addRule zones rules r = rules ++ [r]) := by
  refine ⟨?_, ?_, ?_⟩
  · intro zones rules r zone hz ht hc
    simp [addRule, hz, ht, hc]
  · intro zones rules r zone hz h
    rcases h with h | h
    · simp [addRule, hz, h]
    · simp [addRule, hz, h]
  · intro zones rules r hz
    simp [addRule, hz]

/-- A line zone and an enter rule on it, realizing the rejection branch of
the Add Rule validation. -/
def lineZoneC3 : Zone :=
  { id := "zl", type := ZoneType.line, point0 := { x := 0, y := 0 },
    point1 := { x := 10, y := 0 }, label := "Net" }

/-- An enter rule referencing the line zone. -/
def enterOnLineC3 : Rule :=
  { id := "ra", zoneId := "zl", condition := Condition.enter,
    action := RuleAction.add, points := 1 }

/-- Witness for C3 (amended): the three branches are realized at concrete
rules on the circle zone and on a line zone. -/
theorem claim_c3_rule_validation_witness :
    (addRule [lineZoneC3] [] enterOnLineC3 = []) ∧
    (addRule [zoneC1] [] crossRuleC3 = [] ++ [crossRuleC3]) ∧
    (addRule [] [] crossRuleC3 = [] ++ [crossRuleC3]) :=
  ⟨claim_c3_rule_validation.1 [lineZoneC3] [] enterOnLineC3 lineZoneC3
      rfl rfl (by decide),
   claim_c3_rule_validation.2.1 [zoneC1] [] crossRuleC3 zoneC1 rfl
     (Or.inr rfl),
   claim_c3_rule_validation.2.2 [] [] crossRuleC3 rfl⟩

/-- The one-rule rule set used by the C4 counterexample. -/
def rulesC4 : List Rule :=
  [{ id := "r1", zoneId := "z1", condition := Condition.enter,
     action := RuleAction.add, points := 1 }]

/-- An inside sample and an outside sample sharing the timestamp 0. -/
def pInsideC4 : TrajectoryPoint := { time := 0, center := { x := 0, y := 0 } }

/-- The outside sample of the C4 counterexample. -/
def pOutsideC4 : TrajectoryPoint :=
  { time := 0, center := { x := 10, y := 0 } }

/-- Counterexample to C4 as stated: two samples sharing a timestamp are kept
in arrival order by the stable sort, so the two arrival orders of the same
point set evaluate differently under an Enter rule. -/
theorem claim_c4_equal_times_counterexample :
    [pOutsideC4, pInsideC4].Perm [pInsideC4, pOutsideC4] ∧
    calculateFullScore [zoneC1] rulesC4 [pInsideC4, pOutsideC4] ≠
      calculateFullScore [zoneC1] rulesC4 [pOutsideC4, pInsideC4] := by
  constructor
  · exact List.Perm.swap pInsideC4 pOutsideC4 []
  · have hin : checkInside { x := 0, y := 0 } zoneC1 = true := by
      norm_num [checkInside, isPointInCircle, getDistanceSq, zoneC1]
    have hout : checkInside { x := 10, y := 0 } zoneC1 = false := by
      norm_num [checkInside, isPointInCircle, getDistanceSq, zoneC1]
    have h1 : (calculateFullScore [zoneC1] rulesC4
        [pInsideC4, pOutsideC4]).1 = 0 := by
      rw [calculateFullScore, sortTrajectory_of_sorted (by decide)]
      simp only [scanLoop, rulesC4, pInsideC4, pOutsideC4, List.foldl_cons,
        List.foldl_nil, List.head?]
      simp only [applyRule, findZone, List.find?, zoneC1]
      norm_num [ruleTriggered, ruleDelta, zoneC1]
      simp_all [zoneC1]
    have h2 : (calculateFullScore [zoneC1] rulesC4
        [pOutsideC4, pInsideC4]).1 = 1 := by
      rw [calculateFullScore, sortTrajectory_of_sorted (by decide)]
      simp only [scanLoop, rulesC4, pInsideC4, pOutsideC4, List.foldl_cons,
        List.foldl_nil, List.head?]
      simp only [applyRule, findZone, List.find?, zoneC1]
      norm_num [ruleTriggered, ruleDelta, zoneC1]
      simp_all [zoneC1]
    intro heq
    have := congrArg Prod.fst heq
    rw [h1, h2] at this
    exact absurd this (by decide)

/-- Sorting maps two lists that are permutations of each other with pairwise
distinct times to the same sorted list. -/
theorem sortTrajectory_eq_of_perm {l1 l2 : List TrajectoryPoint}
    (hp : l1.Perm l2) (hd : l1.Pairwise (fun a b => a.time ≠ b.time)) :
    sortTrajectory l1 = sortTrajectory l2 := by
  have htrans : ∀ a b c : TrajectoryPoint,
      timeLe a b = true → timeLe b c = true → timeLe a c = true := by
    intro a b c hab hbc
    exact decide_eq_true (le_trans (of_decide_eq_true hab)
      (of_decide_eq_true hbc))
  have htotal : ∀ a b : TrajectoryPoint,
      (timeLe a b || timeLe b a) = true := by
    intro a b
    rcases le_total a.time b.time with h | h
    · simp [timeLe, h]
    · simp [timeLe, h]
  have p1 : (sortTrajectory l1).Perm l1 := List.mergeSort_perm l1 timeLe
  have p2 : (sortTrajectory l2).Perm l2 := List.mergeSort_perm l2 timeLe
  have hperm : (sortTrajectory l1).Perm (sortTrajectory l2) :=
    (p1.trans hp).trans p2.symm
  have hd1 : (sortTrajectory l1).Pairwise (fun a b => a.time ≠ b.time) :=
    (p1.pairwise_iff (fun h => h.symm)).2 hd
  have hd2 : (sortTrajectory l2).Pairwise (fun a b => a.time ≠ b.time) :=
    (p2.pairwise_iff (fun h => h.symm)).2 ((hp.pairwise_iff
      (fun h => h.symm)).1 hd)
  have hs1 : (sortTrajectory l1).Pairwise (fun a b => timeLe a b = true) :=
    List.sorted_mergeSort htrans htotal l1
  have hs2 : (sortTrajectory l2).Pairwise (fun a b => timeLe a b = true) :=
    List.sorted_mergeSort htrans htotal l2
  have hlt1 : (sortTrajectory l1).Pairwise
      (fun a b => a.time < b.time) :=
    (hs1.and hd1).imp (fun h =>
      lt_of_le_of_ne (of_decide_eq_true h.1) h.2)
  have hlt2 : (sortTrajectory l2).Pairwise
      (fun a b => a.time < b.time) :=
    (hs2.and hd2).imp (fun h =>
      lt_of_le_of_ne (of_decide_eq_true h.1) h.2)
  haveI : IsAntisymm TrajectoryPoint (fun a b => a.time < b.time) :=
    ⟨fun a b h1 h2 => absurd (h1.trans h2) (lt_irrefl _)⟩
  exact List.eq_of_perm_of_sorted hperm hlt1 hlt2

/-- C4 (amended): rule evaluation is order-invariant in its trajectory input
provided the samples carry pairwise distinct times — the engine sorts by
time before the scan, and with distinct keys the sorted list is unique;
repeated evaluation of the same inputs is identical (evaluation is a pure
function of the three inputs). -/
theorem claim_c4_order_invariance :
    (∀ (zones : List Zone) (rules : List Rule)
        (l1 l2 : List TrajectoryPoint),
        l1.Perm l2 → l1.Pairwise (fun a b => a.time ≠ b.time) →
        calculateFullScore zones rules l1 =
          calculateFullScore zones rules l2) ∧
    (∀ (zones : List Zone) (rules : List Rule) (t : List TrajectoryPoint),
        calculateFullScore zones rules t =
          calculateFullScore zones rules t) := by
  constructor
  · intro zones rules l1 l2 hp hd
    rw [calculateFullScore, calculateFullScore,
      sortTrajectory_eq_of_perm hp hd]
  · intro zones rules t
    rfl

/-- Witness for C4 (amended): the two arrival orders of two samples with
distinct times evaluate identically. -/
theorem claim_c4_order_invariance_witness :
    calculateFullScore [zoneC1] rulesC4
      [{ time := 0, center := { x := 0, y := 0 } },
       { time := 1, center := { x := 10, y := 0 } }] =
    calculateFullScore [zoneC1] rulesC4
      [{ time := 1, center := { x := 10, y := 0 } },
       { time := 0, center := { x := 0, y := 0 } }] :=
  claim_c4_order_invariance.1 [zoneC1] rulesC4 _ _
    (List.Perm.swap _ _ []) (by decide)

/-- An if-then-else chain of five early returns of true is the disjunction
of its conditions. -/
theorem ite_chain_iff {A B C D E : Prop} [Decidable A] [Decidable B]
    [Decidable C] [Decidable D] [Decidable E] :
    ((if A then true else if B then true else if C then true
      else if D then true else if E then true else false) = true) ↔
      (A ∨ B ∨ C ∨ D ∨ E) := by
  by_cases hA : A
  · simp [hA]
  · by_cases hB : B
    · simp [hA, hB]
    · by_cases hC : C
      · simp [hA, hB, hC]
      · by_cases hD : D
        · simp [hA, hB, hC, hD]
        · by_cases hE : E <;> simp [hA, hB, hC, hD, hE]

/-- The segment-intersection predicate as the disjunction of the general
orientation case and the four collinear sub-cases. -/
theorem doIntersect_iff (p1 q1 p2 q2 : Point) :
    doIntersect p1 q1 p2 q2 = true ↔
      ((orientation p1 q1 p2 ≠ orientation p1 q1 q2 ∧
        orientation p2 q2 p1 ≠ orientation p2 q2 q1) ∨
       (orientation p1 q1 p2 = 0 ∧ onSegment p1 q1 p2 = true) ∨
       (orientation p1 q1 q2 = 0 ∧ onSegment p1 q1 q2 = true) ∨
       (orientation p2 q2 p1 = 0 ∧ onSegment p2 q2 p1 = true) ∨
       (orientation p2 q2 q1 = 0 ∧ onSegment p2 q2 q1 = true)) := by
  simp only [doIntersect]
  exact ite_chain_iff

/-- C7: the segment-intersection predicate holds iff the general orientation
case holds or one of the four collinear sub-cases does, where the collinear
sub-case is a bounding-box containment of the corresponding third point; the
three concrete cases of the specification evaluate as claimed. -/
theorem claim_c7_segment_intersection :
    (∀ p1 q1 p2 q2 : Point,
        doIntersect p1 q1 p2 q2 = true ↔
          ((orientation p1 q1 p2 ≠ orientation p1 q1 q2 ∧
            orientation p2 q2 p1 ≠ orientation p2 q2 q1) ∨
           (orientation p1 q1 p2 = 0 ∧ onSegment p1 q1 p2 = true) ∨
           (orientation p1 q1 q2 = 0 ∧ onSegment p1 q1 q2 = true) ∨
           (orientation p2 q2 p1 = 0 ∧ onSegment p2 q2 p1 = true) ∨
           (orientation p2 q2 q1 = 0 ∧ onSegment p2 q2 q1 = true))) ∧
    (∀ p r q : Point,
        onSegment p r q = true ↔
          (min p.x r.x ≤ q.x ∧ q.x ≤ max p.x r.x ∧
           min p.y r.y ≤ q.y ∧ q.y ≤ max p.y r.y)) ∧
    doIntersect { x := 0, y := 0 } { x := 10, y := 10 }
      { x := 0, y := 10 } { x := 10, y := 0 } = true ∧
    doIntersect { x := 0, y := 0 } { x := 1, y := 1 }
      { x := 5, y := 5 } { x := 6, y := 6 } = false ∧
    doIntersect { x := 0, y := 0 } { x := 5, y := 5 }
      { x := 2, y := 2 } { x := 3, y := 3 } = true := by
  refine ⟨doIntersect_iff, ?_, ?_, ?_, ?_⟩
  · intro p r q
    simp only [onSegment, Bool.and_eq_true, decide_eq_true_eq]
    tauto
  · have ho1 : orientation { x := 0, y := 0 } { x := 10, y := 10 }
        { x := 0, y := 10 } = 2 := by norm_num [orientation]
    have ho2 : orientation { x := 0, y := 0 } { x := 10, y := 10 }
        { x := 10, y := 0 } = 1 := by norm_num [orientation]
    have ho3 : orientation { x := 0, y := 10 } { x := 10, y := 0 }
        { x := 0, y := 0 } = 1 := by norm_num [orientation]
    have ho4 : orientation { x := 0, y := 10 } { x := 10, y := 0 }
        { x := 10, y := 10 } = 2 := by norm_num [orientation]
    exact (doIntersect_iff _ _ _ _).mpr
      (Or.inl ⟨by rw [ho1, ho2]; decide, by rw [ho3, ho4]; decide⟩)
  · have ho1 : orientation { x := 0, y := 0 } { x := 1, y := 1 }
        { x := 5, y := 5 } = 0 := by norm_num [orientation]
    have ho2 : orientation { x := 0, y := 0 } { x := 1, y := 1 }
        { x := 6, y := 6 } = 0 := by norm_num [orientation]
    have ho3 : orientation { x := 5, y := 5 } { x := 6, y := 6 }
        { x := 0, y := 0 } = 0 := by norm_num [orientation]
    have ho4 : orientation { x := 5, y := 5 } { x := 6, y := 6 }
        { x := 1, y := 1 } = 0 := by norm_num [orientation]
    have hs1 : onSegment { x := 0, y := 0 } { x := 1, y := 1 }
        { x := 5, y := 5 } = false := by
      norm_num [onSegment, max_def, min_def]
    have hs2 : onSegment { x := 0, y := 0 } { x := 1, y := 1 }
        { x := 6, y := 6 } = false := by
      norm_num [onSegment, max_def, min_def]
    have hs3 : onSegment { x := 5, y := 5 } { x := 6, y := 6 }
        { x := 0, y := 0 } = false := by
      norm_num [onSegment, max_def, min_def]
    have hs4 : onSegment { x := 5, y := 5 } { x := 6, y := 6 }
        { x := 1, y := 1 } = false := by
      norm_num [onSegment, max_def, min_def]
    rw [Bool.eq_false_iff]
    intro h
    rcases (doIntersect_iff _ _ _ _).mp h with
      ⟨h1, _⟩ | ⟨_, h2⟩ | ⟨_, h2⟩ | ⟨_, h2⟩ | ⟨_, h2⟩
    · rw [ho1, ho2] at h1
      exact h1 rfl
    · rw [hs1] at h2
      exact absurd h2 (by decide)
    · rw [hs2] at h2
      exact absurd h2 (by decide)
    · rw [hs3] at h2
      exact absurd h2 (by decide)
    · rw [hs4] at h2
      exact absurd h2 (by decide)
  · have ho1 : orientation { x := 0, y := 0 } { x := 5, y := 5 }
        { x := 2, y := 2 } = 0 := by norm_num [orientation]
    have hs1 : onSegment { x := 0, y := 0 } { x := 5, y := 5 }
        { x := 2, y := 2 } = true := by
      norm_num [onSegment, max_def, min_def]
    exact (doIntersect_iff _ _ _ _).mpr (Or.inr (Or.inl ⟨ho1, hs1⟩))

/-- C8: containment dispatches on the zone type — inclusive distance
comparison against the radius for a circle (stated here in the source's
square-root form over the reals), inclusive normalized bounds for a
rectangle, and constantly false for a line. -/
theorem claim_c8_zone_containment :
    (∀ (p : Point) (zone : Zone), zone.type = ZoneType.circle →
        (checkInside p zone = true ↔
          Real.sqrt ((getDistanceSq p zone.point0 : ℚ) : ℝ) ≤
            Real.sqrt ((getDistanceSq zone.point0 zone.point1 : ℚ) : ℝ))) ∧
    (∀ (p : Point) (zone : Zone), zone.type = ZoneType.square →
        (checkInside p zone = true ↔
          (min zone.point0.x zone.point1.x ≤ p.x ∧
           p.x ≤ max zone.point0.x zone.point1.x ∧
           min zone.point0.y zone.point1.y ≤ p.y ∧
           p.y ≤ max zone.point0.y zone.point1.y))) ∧
    (∀ (p : Point) (zone : Zone), zone.type = ZoneType.line →
        checkInside p zone = false) := by
  refine ⟨?_, ?_, ?_⟩
  · intro p zone hz
    simp only [checkInside, hz, isPointInCircle, decide_eq_true_eq]
    have h0 : (0:ℝ) ≤ ((getDistanceSq zone.point0 zone.point1 : ℚ) : ℝ) := by
      rw [getDistanceSq]
      push_cast
      positivity
    rw [Real.sqrt_le_sqrt_iff h0]
    exact Rat.cast_le.symm
  · intro p zone hz
    simp only [checkInside, hz, isPointInRect, Bool.and_eq_true,
      decide_eq_true_eq]
    tauto
  · intro p zone hz
    simp [checkInside, hz]

/-- Witness for C8: the dispatch at a concrete point against the concrete
circle, rectangle and line zones. -/
theorem claim_c8_zone_containment_witness :
    (checkInside { x := 5, y := 0 } zoneC1 = true ↔
      Real.sqrt ((getDistanceSq { x := 5, y := 0 } zoneC1.point0 : ℚ) : ℝ) ≤
        Real.sqrt ((getDistanceSq zoneC1.point0 zoneC1.point1 : ℚ) : ℝ)) ∧
    (checkInside { x := 5, y := 0 } zoneC2 = true ↔
      (min zoneC2.point0.x zoneC2.point1.x ≤ (5:ℚ) ∧
       (5:ℚ) ≤ max zoneC2.point0.x zoneC2.point1.x ∧
       min zoneC2.point0.y zoneC2.point1.y ≤ (0:ℚ) ∧
       (0:ℚ) ≤ max zoneC2.point0.y zoneC2.point1.y)) ∧
    checkInside { x := 5, y := 0 } lineZoneC3 = false :=
  ⟨claim_c8_zone_containment.1 { x := 5, y := 0 } zoneC1 rfl,
   claim_c8_zone_containment.2.1 { x := 5, y := 0 } zoneC2 rfl,
   claim_c8_zone_containment.2.2 { x := 5, y := 0 } lineZoneC3 rfl⟩

/-! Helper lemmas for the landing detector: the sliding-window recursion
emits exactly the windows enumerated by start offset, and the claim's
index-i formulation coincides with the offset formulation. -/

/-- Shifting the window start past a dropped head sample. -/
theorem landingWindowAt_cons (court : List Point) (a : TrajectoryPoint)
    (l : List TrajectoryPoint) (j : ℕ) :
    landingWindowAt court (a :: l) (j + 1) = landingWindowAt court l j :=
  rfl

/-- A window that would reach past the end of the trajectory emits
nothing. -/
theorem landingWindowAt_none (court : List Point)
    (l : List TrajectoryPoint) (j : ℕ) (h : l.length ≤ j + 4) :
    landingWindowAt court l j = none := by
  have h4 : l.get? (j + 4) = none := List.get?_eq_none.mpr h
  rw [landingWindowAt, h4]
  cases h0 : l.get? j <;> cases h1 : l.get? (j + 1) <;>
    cases h2 : l.get? (j + 2) <;> cases h3 : l.get? (j + 3) <;> rfl

/-- The sliding-window recursion equals the offset enumeration of the
windows. -/
theorem detectLandings_eq_windows (court : List Point) :
    ∀ l : List TrajectoryPoint,
      detectLandings court l =
        (List.range l.length).filterMap (landingWindowAt court l) := by
  intro l
  induction l with
  | nil => simp [detectLandings]
  | cons a l ih =>
      rw [List.length_cons, List.range_succ_eq_map, List.filterMap_cons,
        List.filterMap_map]
      have hshift : landingWindowAt court (a :: l) ∘ Nat.succ =
          landingWindowAt court l := by
        funext j
        exact landingWindowAt_cons court a l j
      rw [hshift, ← ih]
      cases l with
      | nil => simp [detectLandings, landingWindowAt]
      | cons b l2 =>
          cases l2 with
          | nil => simp [detectLandings, landingWindowAt]
          | cons c l3 =>
              cases l3 with
              | nil => simp [detectLandings, landingWindowAt]
              | cons d l4 =>
                  cases l4 with
                  | nil => simp [detectLandings, landingWindowAt]
                  | cons e rest =>
                      cases hB : ((decide (b.center.y < c.center.y) &&
                            decide (a.center.y < c.center.y) &&
                            decide (d.center.y < c.center.y) &&
                            decide (e.center.y < c.center.y)) &&
                          courtAccepts court c.center) with
                      | true => simp [detectLandings, landingWindowAt, hB]
                      | false => simp [detectLandings, landingWindowAt, hB]

/-- The claim's index-i formulation coincides with the window-offset
formulation at i = j + 2. -/
theorem landingAtIndex_add_two (court : List Point)
    (l : List TrajectoryPoint) (j : ℕ) :
    landingAtIndex court l (j + 2) = landingWindowAt court l j := by
  rw [landingAtIndex, if_neg (by omega)]
  rfl

/-- The claim's index-i formulation emits nothing below index 2. -/
theorem landingAtIndex_lt_two (court : List Point)
    (l : List TrajectoryPoint) (i : ℕ) (h : i < 2) :
    landingAtIndex court l i = none := by
  rw [landingAtIndex, if_pos h]

/-- Enumerating the claim's per-index emissions over indices 0..m+1 equals
enumerating the windows over offsets 0..m-1: the two guard indices emit
nothing and the remaining indices are the windows shifted by two. -/
theorem filterMap_landingAtIndex_range (court : List Point)
    (l : List TrajectoryPoint) (m : ℕ) :
    (List.range (m + 2)).filterMap (landingAtIndex court l) =
      (List.range m).filterMap (landingWindowAt court l) := by
  rw [List.range_succ_eq_map, List.range_succ_eq_map, List.map_cons,
    List.filterMap_cons, List.filterMap_cons, List.filterMap_map,
    List.filterMap_map]
  rw [landingAtIndex_lt_two court l 0 (by omega),
    landingAtIndex_lt_two court l (Nat.succ 0) (by omega)]
  exact List.filterMap_congr
    (fun j hj => landingAtIndex_add_two court l j)

/-- The last two window offsets of a trajectory of length m + 2 emit
nothing, so the offset enumeration may stop at m. -/
theorem filterMap_window_range_drop (court : List Point)
    (l : List TrajectoryPoint) (m : ℕ) (hlen : l.length ≤ m + 2) :
    (List.range (m + 2)).filterMap (landingWindowAt court l) =
      (List.range m).filterMap (landingWindowAt court l) := by
  rw [show m + 2 = (m + 1) + 1 from rfl, List.range_succ, List.range_succ,
    List.filterMap_append, List.filterMap_append]
  rw [List.filterMap_cons, List.filterMap_cons]
  rw [landingWindowAt_none court l m (by omega),
    landingWindowAt_none court l (m + 1) (by omega)]
  simp

/-- C5: the standalone landing detector emits a landing at index i iff
2 ≤ i ≤ N-3, the centre sample's y strictly exceeds the y of all four
window neighbours, and the court-boundary filter accepts the centre (a
two-corner boundary restricts to its rectangle; otherwise candidates are
accepted unconditionally); the output is the ordered list of the accepted
centres. -/
theorem claim_c5_landing_detector :
    (∀ (court : List Point) (traj : List TrajectoryPoint),
        detectLandings court traj =
          (List.range traj.length).filterMap (landingAtIndex court traj)) ∧
    (∀ (c1 c2 p : Point), courtAccepts [c1, c2] p = isPointInRect p c1 c2) ∧
    (∀ p : Point, courtAccepts [] p = true) := by
  refine ⟨?_, fun c1 c2 p => rfl, fun p => rfl⟩
  intro court traj
  rw [detectLandings_eq_windows]
  rcases le_or_lt traj.length 1 with h | h
  · -- too short for any window on either side
    have hw : ∀ j ∈ List.range traj.length,
        landingWindowAt court traj j = none := by
      intro j hj
      exact landingWindowAt_none court traj j (by omega)
    have hi : ∀ i ∈ List.range traj.length,
        landingAtIndex court traj i = none := by
      intro i hi
      rw [List.mem_range] at hi
      exact landingAtIndex_lt_two court traj i (by omega)
    rw [List.filterMap_congr hw, List.filterMap_congr hi]
  · -- length = m + 2: both sides reduce to the windows at offsets below m
    obtain ⟨m, hm⟩ : ∃ m, traj.length = m + 2 :=
      ⟨traj.length - 2, by omega⟩
    rw [hm, filterMap_window_range_drop court traj m (by omega),
      filterMap_landingAtIndex_range court traj m]

/-! Helper lemmas for the bucket statistics. -/

/-- The counting fold, from any starting state, adds per cell the number of
landing points assigned to that cell and in total the number of assigned
landing points. -/
theorem bucketCounts_loop (grid : GridInfo) :
    ∀ (lands : List Point) (f0 : ℕ → ℕ) (t0 : ℕ),
      lands.foldl
        (fun acc p =>
          match cellIndexOf grid p with
          | some idx => (fun k => if k = idx then acc.1 k + 1 else acc.1 k,
                         acc.2 + 1)
          | none => acc)
        (f0, t0) =
      (fun k => f0 k + cellCountSpec grid lands k,
       t0 + totalSpec grid lands) := by
  intro lands
  induction lands with
  | nil =>
      intro f0 t0
      simp [cellCountSpec, totalSpec]
  | cons p ps ih =>
      intro f0 t0
      rw [List.foldl_cons]
      cases hc : cellIndexOf grid p with
      | none =>
          rw [ih]
          refine Prod.ext (funext fun k => ?_) ?_
          · simp [cellCountSpec, List.countP_cons, hc]
          · simp [totalSpec, List.countP_cons, hc]
      | some idx =>
          rw [ih]
          refine Prod.ext (funext fun k => ?_) ?_
          · by_cases hk : k = idx
            · subst hk
              simp [cellCountSpec, List.countP_cons, hc]
              omega
            · have hne : (some idx == some k) = false := by
                simp [Ne.symm hk]
              simp [cellCountSpec, List.countP_cons, hc, hk, hne]
          · simp [totalSpec, List.countP_cons, hc]
            omega

/-- The counting loop of the stats computation realizes the per-cell counts
and the assigned total. -/
theorem bucketCounts_eq (grid : GridInfo) (lands : List Point) :
    bucketCounts grid lands =
      (fun k => cellCountSpec grid lands k, totalSpec grid lands) := by
  rw [bucketCounts, bucketCounts_loop]
  refine Prod.ext (funext fun k => ?_) ?_
  · simp
  · simp

/-- Folding additions of a function over a list sums its mapped values. -/
theorem foldl_add_map (f : ℕ → ℕ) :
    ∀ (targs : List ℕ) (a : ℕ),
      targs.foldl (fun acc idx => acc + f idx) a = a + (targs.map f).sum := by
  intro targs
  induction targs with
  | nil => intro a; simp
  | cons t ts ih =>
      intro a
      rw [List.foldl_cons, ih]
      simp [add_assoc]

/-- The C6 boundary rectangle (0,0)-(90,90). -/
def courtC6 : List Point := [{ x := 0, y := 0 }, { x := 90, y := 90 }]

/-- The C6 landing points (15,15), (15,15), (75,75). -/
def landsC6 : List Point :=
  [{ x := 15, y := 15 }, { x := 15, y := 15 }, { x := 75, y := 75 }]

/-- The grid of the C6 boundary: origin (0,0), 90 x 90, 30 x 30 cells. -/
def gridC6 : GridInfo :=
  { x := 0, y := 0, w := 90, h := 90, cellW := 30, cellH := 30 }

/-- C6: with a defined boundary grid, the statistics count each landing into
the cell given by the floored column and row (dropping landings outside
0..2 in either coordinate, also from the total), give each cell the
percentage count/total*100 (0 for a zero total), and the target efficiency
(sum of target-cell counts)/total*100 (0 for a zero total); in particular
the (0,0)-(90,90) boundary with landings (15,15), (15,15), (75,75) counts 2
in cell 0 and 1 in cell 8, with efficiency 200/3 percent (66.7%) for target
cell 0. -/
theorem claim_c6_bucket_statistics :
    (∀ (court lands : List Point) (targs : List ℕ) (grid : GridInfo),
        getGridInfo court = some grid →
        computeStats court lands targs =
          { total := totalSpec grid lands
            quadrants := (List.range 9).map (fun k =>
              { count := cellCountSpec grid lands k
                percentage :=
                  if 0 < totalSpec grid lands then
                    (cellCountSpec grid lands k : ℚ) /
                      (totalSpec grid lands : ℚ) * 100
                  else 0 })
            efficiency :=
              if 0 < totalSpec grid lands then
                ((targs.map (cellCountSpec grid lands)).sum : ℚ) /
                  (totalSpec grid lands : ℚ) * 100
              else 0 }) ∧
    ((computeStats courtC6 landsC6 [0]).total = 3 ∧
     (computeStats courtC6 landsC6 [0]).quadrants.get? 0 =
       some { count := 2, percentage := 200/3 } ∧
     (computeStats courtC6 landsC6 [0]).quadrants.get? 8 =
       some { count := 1, percentage := 100/3 } ∧
     (computeStats courtC6 landsC6 [0]).efficiency = 200/3) := by
  have hgen : ∀ (court lands : List Point) (targs : List ℕ) (grid : GridInfo),
      getGridInfo court = some grid →
      computeStats court lands targs =
        { total := totalSpec grid lands
          quadrants := (List.range 9).map (fun k =>
            { count := cellCountSpec grid lands k
              percentage :=
                if 0 < totalSpec grid lands then
                  (cellCountSpec grid lands k : ℚ) /
                    (totalSpec grid lands : ℚ) * 100
                else 0 })
          efficiency :=
            if 0 < totalSpec grid lands then
              ((targs.map (cellCountSpec grid lands)).sum : ℚ) /
                (totalSpec grid lands : ℚ) * 100
            else 0 } := by
    intro court lands targs grid hg
    simp only [computeStats, hg, bucketCounts_eq]
    rw [foldl_add_map]
    simp
  refine ⟨hgen, ?_⟩
  have hgrid : getGridInfo courtC6 = some gridC6 := by
    simp only [getGridInfo, courtC6, gridC6]
    norm_num [min_def, abs_of_nonneg]
  have hf15 : Int.floor (((15:ℚ) - 0) / 30) = 0 := by
    rw [Int.floor_eq_iff] <;> norm_num
  have hf75 : Int.floor (((75:ℚ) - 0) / 30) = 2 := by
    rw [Int.floor_eq_iff] <;> norm_num
  have hc15 : cellIndexOf gridC6 { x := 15, y := 15 } = some 0 := by
    simp only [cellIndexOf, gridC6]
    rw [if_pos]
    · norm_num [hf15]
    · norm_num [hf15]
  have hc75 : cellIndexOf gridC6 { x := 75, y := 75 } = some 8 := by
    simp only [cellIndexOf, gridC6]
    rw [if_pos]
    · norm_num [hf75]
      decide
    · norm_num [hf75]
  have hcount0 : cellCountSpec gridC6 landsC6 0 = 2 := by
    simp [cellCountSpec, landsC6, List.countP_cons, hc15, hc75]
  have hcount8 : cellCountSpec gridC6 landsC6 8 = 1 := by
    simp [cellCountSpec, landsC6, List.countP_cons, hc15, hc75]
  have htotal : totalSpec gridC6 landsC6 = 3 := by
    simp [totalSpec, landsC6, List.countP_cons, hc15, hc75]
  rw [hgen courtC6 landsC6 [0] gridC6 hgrid]
  refine ⟨by simp [htotal], ?_, ?_, ?_⟩
  · rw [List.get?_map, List.get?_range (by norm_num)]
    simp only [Option.map_some']
    rw [hcount0, htotal]
    norm_num
  · rw [List.get?_map, List.get?_range (by norm_num)]
    simp only [Option.map_some']
    rw [hcount8, htotal]
    norm_num
  · simp only [List.map_cons, List.map_nil, List.sum_cons, List.sum_nil]
    rw [hcount0, htotal]
    norm_num

/-- Witness for C6: the refinement hypothesis is satisfiable at the concrete
boundary. -/
theorem claim_c6_bucket_statistics_witness :
    computeStats courtC6 [] [] =
      { total := totalSpec gridC6 []
        quadrants := (List.range 9).map (fun k =>
          { count := cellCountSpec gridC6 [] k
            percentage :=
              if 0 < totalSpec gridC6 [] then
                (cellCountSpec gridC6 [] k : ℚ) /
                  (totalSpec gridC6 [] : ℚ) * 100
              else 0 })
        efficiency :=
          if 0 < totalSpec gridC6 [] then
            (([].map (cellCountSpec gridC6 [])).sum : ℚ) /
              (totalSpec gridC6 [] : ℚ) * 100
          else 0 } :=
  claim_c6_bucket_statistics.1 courtC6 [] [] gridC6
    (by simp only [getGridInfo, courtC6, gridC6]
        norm_num [min_def, abs_of_nonneg])

end VolleyStats
